import Mathlib

/-!
Formal model of the Xbox 360 GPU shader microcode translator front end whose
interface is declared in `src/xenia/gpu/shader_translator.h` and
`src/xenia/gpu/shader.h`.  The repository snapshot holds only those two
headers; the implementation file of the translator is absent, so the body of
each declared routine is modelled from the specification, while the
declarations themselves (class members, opcode table sizes, accessor
signatures, default hook bodies) are embedded from the headers.
-/

set_option autoImplicit false

namespace XeGpu

/-- Shader kind tag (`ShaderType::kVertex` / `ShaderType::kPixel`), used by
`shader_translator.h` (the defining header `xenos.h` is not in the snapshot;
the two values are those the translator queries via `is_vertex_shader` /
`is_pixel_shader`). -/
inductive ShaderType where
  | kVertex
  | kPixel
  deriving DecidableEq, Repr

/-- Modelled from the spec: the error taxonomy of section 7 of the design
(`UnimplementedInstruction`, `InvalidEncoding`, `GeneralTranslationError`);
the error type `Shader::Error` referenced by `shader_translator.h` is not
declared in the snapshot's `shader.h`. -/
inductive ErrorKind where
  | UnimplementedInstruction
  | InvalidEncoding
  | GeneralTranslationError
  deriving DecidableEq, Repr

/-- Modelled from the spec: an error is a kind tag plus a human-readable
message, accumulated in the translator's `errors_` list. -/
structure ShaderError where
  kind : ErrorKind
  message : String
  deriving DecidableEq, Repr

/-- Modelled from the spec: one vertex attribute of a vertex binding (data
format, byte offset, normalization flag); `Shader::VertexBinding` is
referenced by `shader_translator.h` but not declared in the snapshot's
`shader.h`. -/
structure VertexAttribute where
  format : Nat
  offset : Nat
  is_normalized : Bool
  deriving DecidableEq, Repr

/-- Modelled from the spec: a vertex binding is a fetch-constant slot index
plus an ordered list of attributes, unique per fetch slot. -/
structure VertexBinding where
  fetch_constant : Nat
  attributes : List VertexAttribute
  deriving DecidableEq, Repr

/-- Modelled from the spec: a texture binding is a fetch-constant slot index
plus a sampler dimensionality, unique per fetch slot. -/
structure TextureBinding where
  fetch_constant : Nat
  dimension : Nat
  deriving DecidableEq, Repr

/-- Modelled from the spec: a decoded vertex-fetch instruction
(`ucode::VertexFetchInstruction`).  The full encoding carries an explicit
fetch-constant slot; the mini encoding omits it and reuses the slot of the
most recent full fetch of the session.  The bit-level layout is an external
contract, so the decoded fields are modelled directly. -/
structure VertexFetchInstruction where
  is_mini_fetch : Bool
  fetch_constant_index : Nat
  format : Nat
  offset : Nat
  is_normalized : Bool
  deriving DecidableEq, Repr

/-- Modelled from the spec: a decoded texture-fetch instruction
(`ucode::TextureFetchInstruction`): fetch-constant slot and sampler
dimensionality, both taken directly from the instruction fields. -/
structure TextureFetchInstruction where
  fetch_constant_index : Nat
  dimension : Nat
  deriving DecidableEq, Repr

/-- Modelled from the spec: the ALU decode branches on whether the
instruction is vector or scalar; the raw opcode field indexes the matching
opcode table. -/
inductive AluOp where
  | vector (opcode : Nat)
  | scalar (opcode : Nat)
  deriving DecidableEq, Repr

/-- Modelled from the spec: a decoded ALU instruction
(`ucode::AluInstruction`): its vector/scalar opcode, whether it is an export,
and the export destination index (a render target when below four). -/
structure AluInstruction where
  op : AluOp
  is_export : Bool
  export_dest : Nat
  deriving DecidableEq, Repr

/-- Modelled from the spec: an instruction contained in an exec block's
declared range: a vertex fetch, a texture fetch, or an ALU instruction. -/
inductive ExecDataInstruction where
  | vfetch (op : VertexFetchInstruction)
  | tfetch (op : TextureFetchInstruction)
  | alu (op : AluInstruction)
  deriving DecidableEq, Repr

/-- Modelled from the spec: a control-flow instruction
(`ucode::ControlFlowInstruction`), one of the ten kinds dispatched by
`TranslateControlFlowInstruction`.  Exec-like kinds carry the instructions of
their declared range; loop/call/jump kinds carry their target address. -/
inductive ControlFlowInstruction where
  | nop
  | exec (instrs : List ExecDataInstruction)
  | condExec (instrs : List ExecDataInstruction)
  | condExecPred (condition : Bool) (instrs : List ExecDataInstruction)
  | loopStart (target : Nat)
  | loopEnd (target : Nat)
  | condCall (target : Nat)
  | ret
  | condJmp (target : Nat)
  | alloc
  deriving DecidableEq, Repr

/-- The `Shader` class exactly as declared in the snapshot's
`src/xenia/gpu/shader.h` (lines 20-24): it declares no data members at all
(only a constructor and a virtual destructor), so a value of this type
carries no state. -/
structure Shader where
  deriving DecidableEq, Repr

/-- `ShaderTranslator::AluOpcodeInfo` (shader_translator.h lines 109-113):
name, argument count and source swizzle component count of one opcode-table
entry. -/
structure AluOpcodeInfo where
  name : String
  argument_count : Nat
  src_swizzle_component_count : Nat
  deriving DecidableEq, Repr

/-- `alu_vector_opcode_infos_` (shader_translator.h line 185): a static table
of `0x20` entries indexed by the raw vector opcode.  Modelled from the spec:
the entry contents live in the absent implementation file, so placeholder
entries of the declared count are used; the claims depend only on the table's
size and on the indexed entry being the one consumed by the decoder. -/
def alu_vector_opcode_infos_ : List AluOpcodeInfo :=
  (List.range 32).map (fun i => ⟨"valu" ++ toString i, 3, 3⟩)

/-- `alu_scalar_opcode_infos_` (shader_translator.h line 186): a static table
of `0x40` entries indexed by the raw scalar opcode, modelled like the vector
table. -/
def alu_scalar_opcode_infos_ : List AluOpcodeInfo :=
  (List.range 64).map (fun i => ⟨"salu" ++ toString i, 1, 1⟩)

/-- The disassembly buffer (`StringBuffer ucode_disasm_buffer_`), modelled as
the list of appended disassembly lines; the accumulated text is their
concatenation. -/
abbrev StringBuffer := List String

/-- The translator's session state: the private data members of
`ShaderTranslator` (shader_translator.h lines 161-183). -/
structure TranslatorState where
  shader_type_ : ShaderType
  errors_ : List ShaderError
  ucode_disasm_buffer_ : StringBuffer
  ucode_disasm_line_number_ : Nat
  previous_ucode_disasm_scan_offset_ : Nat
  previous_vfetch_full_ : Option VertexFetchInstruction
  total_attrib_count_ : Nat
  vertex_bindings_ : List VertexBinding
  texture_bindings_ : List TextureBinding
  writes_color_targets_ : List Bool
  deriving DecidableEq, Repr

/-- Modelled from the spec: `ShaderTranslator::Reset` (declared at
shader_translator.h line 35) resets every piece of translator-local decode
state before a translation begins; no field of the previous session
survives apart from the shader kind, which `Translate` overwrites anyway. -/
def Reset (st : TranslatorState) : TranslatorState :=
  { shader_type_ := st.shader_type_
    errors_ := []
    ucode_disasm_buffer_ := []
    ucode_disasm_line_number_ := 0
    previous_ucode_disasm_scan_offset_ := 0
    previous_vfetch_full_ := none
    total_attrib_count_ := 0
    vertex_bindings_ := []
    texture_bindings_ := []
    writes_color_targets_ := [false, false, false, false] }

/-- Modelled from the spec: every decode step that consumes at least one
instruction word appends exactly one annotated line to the disassembly
buffer and advances the line counter by one. -/
def appendDisasmLine (st : TranslatorState) (text : String) : TranslatorState :=
  { st with
    ucode_disasm_buffer_ := st.ucode_disasm_buffer_ ++ [text]
    ucode_disasm_line_number_ := st.ucode_disasm_line_number_ + 1 }

/-- `ShaderTranslator::EmitTranslationError` (shader_translator.h line 55),
modelled from the spec: errors are recorded in the append-only `errors_`
list, never thrown, and decoding continues. -/
def EmitTranslationError (st : TranslatorState) (kind : ErrorKind) (message : String) :
    TranslatorState :=
  { st with errors_ := st.errors_ ++ [⟨kind, message⟩] }

/-- The instructions contained in a control-flow instruction's declared exec
range (empty for the non-exec kinds). -/
def execData : ControlFlowInstruction → List ExecDataInstruction
  | ControlFlowInstruction.exec l => l
  | ControlFlowInstruction.condExec l => l
  | ControlFlowInstruction.condExecPred _ l => l
  | _ => []

/-- Modelled from the spec: inserting one vertex attribute into the vertex
binding list, deduplicated by fetch-constant slot: a slot seen twice
contributes one binding with the attributes merged. -/
def insertVertexAttrib : List VertexBinding → Nat → VertexAttribute → List VertexBinding
  | [], slot, a => [⟨slot, [a]⟩]
  | b :: bs, slot, a =>
    if b.fetch_constant = slot then
      { b with attributes := b.attributes ++ [a] } :: bs
    else
      b :: insertVertexAttrib bs slot a

/-- Modelled from the spec: inserting one texture binding, deduplicated by
fetch-constant slot (a slot seen twice keeps the first, consistent
binding). -/
def insertTextureBinding : List TextureBinding → Nat → Nat → List TextureBinding
  | [], slot, dim => [⟨slot, dim⟩]
  | b :: bs, slot, dim =>
    if b.fetch_constant = slot then
      b :: bs
    else
      b :: insertTextureBinding bs slot dim

/-- The attribute recorded for one decoded vertex-fetch instruction. -/
def mkAttr (op : VertexFetchInstruction) : VertexAttribute :=
  ⟨op.format, op.offset, op.is_normalized⟩

/-- Modelled from the spec: the binding gatherer's walk over the
instructions of one exec range (`GatherVertexBindingInformation` /
`GatherTextureBindingInformation`, shader_translator.h lines 122-124).  A
full vertex fetch contributes an attribute at its explicit slot and becomes
the remembered previous full fetch; a mini fetch contributes an attribute at
the remembered slot (and is skipped here when no full fetch precedes it; the
decoder pass reports that case).  The pass fires no backend hook. -/
def gatherExecData :
    TranslatorState → Option VertexFetchInstruction → List ExecDataInstruction →
      TranslatorState × Option VertexFetchInstruction
  | st, prev, [] => (st, prev)
  | st, prev, ExecDataInstruction.vfetch op :: rest =>
    if op.is_mini_fetch then
      match prev with
      | some p =>
        gatherExecData
          { st with
            vertex_bindings_ :=
              insertVertexAttrib st.vertex_bindings_ p.fetch_constant_index (mkAttr op)
            total_attrib_count_ := st.total_attrib_count_ + 1 }
          prev rest
      | none => gatherExecData st prev rest
    else
      gatherExecData
        { st with
          vertex_bindings_ :=
            insertVertexAttrib st.vertex_bindings_ op.fetch_constant_index (mkAttr op)
          total_attrib_count_ := st.total_attrib_count_ + 1 }
        (some op) rest
  | st, prev, ExecDataInstruction.tfetch op :: rest =>
    gatherExecData
      { st with
        texture_bindings_ :=
          insertTextureBinding st.texture_bindings_ op.fetch_constant_index op.dimension }
      prev rest
  | st, prev, ExecDataInstruction.alu _ :: rest => gatherExecData st prev rest

/-- Modelled from the spec: the binding gatherer's scan of the whole
control-flow stream, threading the remembered previous full vertex fetch. -/
def gatherPass :
    TranslatorState → Option VertexFetchInstruction → List ControlFlowInstruction →
      TranslatorState × Option VertexFetchInstruction
  | st, prev, [] => (st, prev)
  | st, prev, cf :: rest =>
    let r := gatherExecData st prev (execData cf)
    gatherPass r.1 r.2 rest

/-- `ShaderTranslator::GatherBindingInformation` (shader_translator.h line
121), modelled from the spec: one scan of the full control-flow stream,
before any backend hook fires, populating the vertex and texture binding
sets deduplicated by fetch-constant slot. -/
def GatherBindingInformation (st : TranslatorState) (u : List ControlFlowInstruction) :
    TranslatorState :=
  (gatherPass st none u).1

/-- The control-flow target addresses referenced by one control-flow
instruction: `LoopStart`/`LoopEnd`, `CondCall` and `CondJmp` carry one
target each; the other kinds reference none. -/
def cfTargets : ControlFlowInstruction → List Nat
  | ControlFlowInstruction.loopStart t => [t]
  | ControlFlowInstruction.loopEnd t => [t]
  | ControlFlowInstruction.condCall t => [t]
  | ControlFlowInstruction.condJmp t => [t]
  | _ => []

/-- Adding one address to the label set: a set, so an address already
present is not added again. -/
def addLabel (ls : List Nat) (a : Nat) : List Nat :=
  if a ∈ ls then ls else ls ++ [a]

/-- The pre-pass accumulator over the control-flow stream. -/
def gatherLabelsAux : List Nat → List ControlFlowInstruction → List Nat
  | ls, [] => ls
  | ls, cf :: rest => gatherLabelsAux ((cfTargets cf).foldl addLabel ls) rest

/-- Modelled from the spec: the label set pre-pass of `TranslateBlocks`:
scan every control-flow instruction and collect every referenced target
address once. -/
def gatherLabels (u : List ControlFlowInstruction) : List Nat :=
  gatherLabelsAux [] u

/-- The property of a control-flow instruction referencing address `a`,
stated directly from the claim: `a` is the target of a `LoopStart`,
`LoopEnd`, `CondCall` or `CondJmp` instruction. -/
def ReferencesAddr (cf : ControlFlowInstruction) (a : Nat) : Prop :=
  cf = ControlFlowInstruction.loopStart a ∨ cf = ControlFlowInstruction.loopEnd a ∨
    cf = ControlFlowInstruction.condCall a ∨ cf = ControlFlowInstruction.condJmp a

/-- One backend hook invocation, recorded in order of occurrence: the
structural events of the hook protocol of shader_translator.h lines 62-106
(`StartTranslation`, `ProcessLabel`, the control-flow hooks, the
per-instruction hooks, `CompleteTranslation`) plus the `Reset` step. -/
inductive Event where
  | reset
  | startTranslation
  | label (cf_index : Nat)
  | cfNop
  | execBegin
  | execEnd
  | loopStart (target : Nat)
  | loopEnd (target : Nat)
  | call (target : Nat)
  | ret
  | jump (target : Nat)
  | alloc
  | vertexFetch (fetch_constant : Nat)
  | textureFetch (fetch_constant : Nat)
  | alu
  | completeTranslation
  deriving DecidableEq, Repr

/-- `ShaderTranslator::TranslateVertexFetchInstruction` (shader_translator.h
line 146), modelled from the spec: a full fetch resolves its explicit slot
and is recorded as `previous_vfetch_full_`; a mini fetch reuses the recorded
slot, and a mini fetch with no recorded full fetch is an `InvalidEncoding`
error.  Either way the decode step appends one disassembly line. -/
def TranslateVertexFetchInstruction (st : TranslatorState) (op : VertexFetchInstruction) :
    TranslatorState × List Event :=
  if op.is_mini_fetch then
    match st.previous_vfetch_full_ with
    | none =>
      (appendDisasmLine
        (EmitTranslationError st ErrorKind.InvalidEncoding
          "vfetch_mini with no preceding full vfetch")
        "vfetch_mini <invalid>", [])
    | some prev =>
      (appendDisasmLine st ("vfetch_mini fc=" ++ toString prev.fetch_constant_index),
        [Event.vertexFetch prev.fetch_constant_index])
  else
    (appendDisasmLine { st with previous_vfetch_full_ := some op }
      ("vfetch_full fc=" ++ toString op.fetch_constant_index),
      [Event.vertexFetch op.fetch_constant_index])

/-- `ShaderTranslator::TranslateTextureFetchInstruction` (shader_translator.h
line 150), modelled from the spec: slot and dimensionality come directly
from the instruction fields; one disassembly line is appended. -/
def TranslateTextureFetchInstruction (st : TranslatorState) (op : TextureFetchInstruction) :
    TranslatorState × List Event :=
  (appendDisasmLine st ("tfetch fc=" ++ toString op.fetch_constant_index),
    [Event.textureFetch op.fetch_constant_index])

/-- Modelled from the spec: any ALU instruction whose export destination
addresses render target index 0-3 sets the matching
`writes_color_targets_` flag; a set beyond the list length leaves it
unchanged. -/
def applyExport (st : TranslatorState) (op : AluInstruction) : TranslatorState :=
  if op.is_export && decide (op.export_dest < 4) then
    { st with writes_color_targets_ := st.writes_color_targets_.set op.export_dest true }
  else
    st

/-- `ShaderTranslator::TranslateAluInstruction` (shader_translator.h line
155), modelled from the spec: export destinations are tracked, then the raw
opcode field indexes the matching opcode table with explicit bounds
checking; an opcode outside the table is an `UnimplementedInstruction`
error.  Either way the decode step appends one disassembly line. -/
def TranslateAluInstruction (st : TranslatorState) (op : AluInstruction) :
    TranslatorState × List Event :=
  let st0 := applyExport st op
  match op.op with
  | AluOp.vector k =>
    match alu_vector_opcode_infos_[k]? with
    | some info => (appendDisasmLine st0 ("  " ++ info.name), [Event.alu])
    | none =>
      (appendDisasmLine
        (EmitTranslationError st0 ErrorKind.UnimplementedInstruction
          "unimplemented alu vector opcode")
        "  <unimplemented alu vector opcode>", [])
  | AluOp.scalar k =>
    match alu_scalar_opcode_infos_[k]? with
    | some info => (appendDisasmLine st0 ("  " ++ info.name), [Event.alu])
    | none =>
      (appendDisasmLine
        (EmitTranslationError st0 ErrorKind.UnimplementedInstruction
          "unimplemented alu scalar opcode")
        "  <unimplemented alu scalar opcode>", [])

/-- Dispatch of one contained instruction to its translate routine. -/
def TranslateExecInstruction (st : TranslatorState) (d : ExecDataInstruction) :
    TranslatorState × List Event :=
  match d with
  | ExecDataInstruction.vfetch op => TranslateVertexFetchInstruction st op
  | ExecDataInstruction.tfetch op => TranslateTextureFetchInstruction st op
  | ExecDataInstruction.alu op => TranslateAluInstruction st op

/-- `ShaderTranslator::TranslateExecInstructions` (shader_translator.h line
144), modelled from the spec: every contained instruction of the exec's
declared range is decoded and dispatched in stream order. -/
def TranslateExecInstructions :
    TranslatorState → List ExecDataInstruction → TranslatorState × List Event
  | st, [] => (st, [])
  | st, d :: rest =>
    let r1 := TranslateExecInstruction st d
    let r2 := TranslateExecInstructions r1.1 rest
    (r2.1, r1.2 ++ r2.2)

/-- `ShaderTranslator::TranslateControlFlowInstruction` (shader_translator.h
line 125), modelled from the spec: dispatch on the instruction kind; the
exec kinds fire `ProcessExecInstructionBegin`, decode their contained
instructions, then fire `ProcessExecInstructionEnd`; every kind appends one
disassembly line for the control-flow word itself. -/
def TranslateControlFlowInstruction (st : TranslatorState) (cf : ControlFlowInstruction) :
    TranslatorState × List Event :=
  match cf with
  | ControlFlowInstruction.nop => (appendDisasmLine st "cnop", [Event.cfNop])
  | ControlFlowInstruction.exec l =>
    let r := TranslateExecInstructions (appendDisasmLine st "exec") l
    (r.1, Event.execBegin :: r.2 ++ [Event.execEnd])
  | ControlFlowInstruction.condExec l =>
    let r := TranslateExecInstructions (appendDisasmLine st "cexec") l
    (r.1, Event.execBegin :: r.2 ++ [Event.execEnd])
  | ControlFlowInstruction.condExecPred _ l =>
    let r := TranslateExecInstructions (appendDisasmLine st "cexec_pred") l
    (r.1, Event.execBegin :: r.2 ++ [Event.execEnd])
  | ControlFlowInstruction.loopStart t =>
    (appendDisasmLine st "loop_start", [Event.loopStart t])
  | ControlFlowInstruction.loopEnd t =>
    (appendDisasmLine st "loop_end", [Event.loopEnd t])
  | ControlFlowInstruction.condCall t => (appendDisasmLine st "ccall", [Event.call t])
  | ControlFlowInstruction.ret => (appendDisasmLine st "cret", [Event.ret])
  | ControlFlowInstruction.condJmp t => (appendDisasmLine st "cjmp", [Event.jump t])
  | ControlFlowInstruction.alloc => (appendDisasmLine st "alloc", [Event.alloc])

/-- Modelled from the spec: one main-pass step at control-flow address `i`:
when `i` is in the label set, `ProcessLabel` is invoked before any other
action for that address, then the instruction is dispatched. -/
def blockStep (labels : List Nat) (i : Nat) (st : TranslatorState)
    (cf : ControlFlowInstruction) : TranslatorState × List Event :=
  let pre : List Event := if i ∈ labels then [Event.label i] else []
  let r := TranslateControlFlowInstruction st cf
  (r.1, pre ++ r.2)

/-- The main pass over the control-flow stream in ascending address order. -/
def runBlocks (labels : List Nat) :
    TranslatorState → Nat → List ControlFlowInstruction → TranslatorState × List Event
  | st, _, [] => (st, [])
  | st, i, cf :: rest =>
    let r1 := blockStep labels i st cf
    let r2 := runBlocks labels r1.1 (i + 1) rest
    (r2.1, r1.2 ++ r2.2)

/-- `ShaderTranslator::TranslateBlocks` (shader_translator.h line 120),
modelled from the spec: compute the label set in a pre-pass, then walk the
stream in address order firing the hooks. -/
def TranslateBlocks (st : TranslatorState) (u : List ControlFlowInstruction) :
    TranslatorState × List Event :=
  runBlocks (gatherLabels u) st 0 u

/-- `ShaderTranslator::CompleteTranslation` default body
(shader_translator.h lines 66-68): returns an empty binary. -/
def CompleteTranslation (_ : TranslatorState) : List Nat := []

/-- The outcome of one `Translate` call: the success flag, the backend
binary, the final session state (bindings, errors, disassembly, flags) and
the ordered record of the backend hook invocations. -/
structure TranslateResult where
  success : Bool
  binary : List Nat
  final : TranslatorState
  trace : List Event
  deriving DecidableEq, Repr

/-- `ShaderTranslator::Translate` (shader_translator.h line 29), modelled
from the spec: the only public entry point; it drives `Reset`, then the
binding gatherer (which fires no hook), then `StartTranslation` and the
linearizer pass (which fires the hooks), then `CompleteTranslation`, and it
succeeds exactly when the accumulated error list is empty at that point.
The snapshot's `Shader` class declares no members, so the shader kind and
the microcode stream are taken directly as the inputs of section 6 of the
specification. -/
def Translate (session : TranslatorState) (ty : ShaderType)
    (u : List ControlFlowInstruction) : TranslateResult :=
  let st0 : TranslatorState := { Reset session with shader_type_ := ty }
  let st1 := GatherBindingInformation st0 u
  let r := TranslateBlocks st1 u
  { success := r.1.errors_.isEmpty
    binary := CompleteTranslation r.1
    final := r.1
    trace := Event.reset :: Event.startTranslation :: r.2 ++ [Event.completeTranslation] }

/-- Accessor `ucode_disasm_line_number()` (shader_translator.h line 51): a
const member returning the counter by value. -/
def ucode_disasm_line_number (st : TranslatorState) : Nat :=
  st.ucode_disasm_line_number_

/-- Read through the accessor `ucode_disasm_buffer()` (shader_translator.h
line 53). -/
def ucode_disasm_buffer (st : TranslatorState) : StringBuffer :=
  st.ucode_disasm_buffer_

/-- Write through the accessor `ucode_disasm_buffer()` (shader_translator.h
line 53): the member function is not const and returns a plain
`StringBuffer&`, so a hook implementation holding the reference can assign
the member; the update that reference permits is embedded explicitly. -/
def ucode_disasm_buffer_ref_write (st : TranslatorState) (b : StringBuffer) :
    TranslatorState :=
  { st with ucode_disasm_buffer_ := b }

/-- Accessor `vertex_bindings()` (shader_translator.h lines 42-44). -/
def vertex_bindings (st : TranslatorState) : List VertexBinding :=
  st.vertex_bindings_

/-- Accessor `texture_bindings()` (shader_translator.h lines 46-48). -/
def texture_bindings (st : TranslatorState) : List TextureBinding :=
  st.texture_bindings_

/-- The fetch-constant slots of the accumulated vertex bindings. -/
def vbSlots (st : TranslatorState) : List Nat :=
  st.vertex_bindings_.map VertexBinding.fetch_constant

/-- The fetch-constant slots of the accumulated texture bindings. -/
def tbSlots (st : TranslatorState) : List Nat :=
  st.texture_bindings_.map TextureBinding.fetch_constant

/-- The explicit fetch-constant slots of one contained instruction: the slot
of a full vertex fetch (mini fetches carry none). -/
def dataFullVertexSlots : ExecDataInstruction → List Nat
  | ExecDataInstruction.vfetch op =>
    if op.is_mini_fetch then [] else [op.fetch_constant_index]
  | _ => []

/-- The fetch-constant slots of one contained texture fetch. -/
def dataTextureSlots : ExecDataInstruction → List Nat
  | ExecDataInstruction.tfetch op => [op.fetch_constant_index]
  | _ => []

/-- Every contained instruction of the stream, in order. -/
def allExecData (u : List ControlFlowInstruction) : List ExecDataInstruction :=
  u.flatMap execData

/-- The explicit full vertex-fetch slots referenced by the stream. -/
def fullVertexSlots (u : List ControlFlowInstruction) : List Nat :=
  (allExecData u).flatMap dataFullVertexSlots

/-- The texture-fetch slots referenced by the stream. -/
def textureSlotsOf (u : List ControlFlowInstruction) : List Nat :=
  (allExecData u).flatMap dataTextureSlots

/-- The number of decode steps of a stream: one per control-flow word plus
one per contained instruction, each consuming at least one instruction
word. -/
def decodeSteps (u : List ControlFlowInstruction) : Nat :=
  (u.map (fun cf => 1 + (execData cf).length)).sum

/-- The aggregate effect every decode step has on the session state: the
line counter advances by the step count, the disassembly buffer only grows,
the error list only grows, the gathered bindings are untouched, and a
render-target flag once true stays true. -/
def StepEffects (st st' : TranslatorState) (k : Nat) : Prop :=
  st'.ucode_disasm_line_number_ = st.ucode_disasm_line_number_ + k ∧
  (∃ t, st'.ucode_disasm_buffer_ = st.ucode_disasm_buffer_ ++ t) ∧
  (∃ es, st'.errors_ = st.errors_ ++ es) ∧
  st'.vertex_bindings_ = st.vertex_bindings_ ∧
  st'.texture_bindings_ = st.texture_bindings_ ∧
  ∀ i : Nat, st.writes_color_targets_[i]? = some true →
    st'.writes_color_targets_[i]? = some true

/-- A concrete fresh session state (the state `Reset` establishes, with the
vertex shader kind). -/
def session0 : TranslatorState :=
  { shader_type_ := ShaderType.kVertex
    errors_ := []
    ucode_disasm_buffer_ := []
    ucode_disasm_line_number_ := 0
    previous_ucode_disasm_scan_offset_ := 0
    previous_vfetch_full_ := none
    total_attrib_count_ := 0
    vertex_bindings_ := []
    texture_bindings_ := []
    writes_color_targets_ := [false, false, false, false] }

/-- A full vertex fetch at the given fetch-constant slot. -/
def fullVfetch (slot : Nat) : VertexFetchInstruction :=
  { is_mini_fetch := false, fetch_constant_index := slot, format := 0, offset := 0,
    is_normalized := false }

/-- A mini vertex fetch (the encoding carries no slot of its own). -/
def miniVfetch : VertexFetchInstruction :=
  { is_mini_fetch := true, fetch_constant_index := 0, format := 0, offset := 0,
    is_normalized := false }

/-- A texture fetch at the given fetch-constant slot. -/
def sampleTfetch (slot : Nat) : TextureFetchInstruction :=
  { fetch_constant_index := slot, dimension := 2 }

/-- An exporting vector-ALU instruction addressing the given export
destination. -/
def exportAlu (dest : Nat) : AluInstruction :=
  { op := AluOp.vector 0, is_export := true, export_dest := dest }

/-- A non-exporting vector-ALU instruction with the given raw opcode. -/
def plainAlu (k : Nat) : AluInstruction :=
  { op := AluOp.vector k, is_export := false, export_dest := 0 }

/-- Microcode whose ALU instructions export to render targets 0 and 3. -/
def ucodeRt03 : List ControlFlowInstruction :=
  [ControlFlowInstruction.exec
    [ExecDataInstruction.alu (exportAlu 0), ExecDataInstruction.alu (exportAlu 3)]]

/-- Microcode whose single ALU instruction exports to no render target. -/
def ucodeNoExport : List ControlFlowInstruction :=
  [ControlFlowInstruction.exec [ExecDataInstruction.alu (plainAlu 1)]]

/-- Microcode with exactly one unimplemented opcode (vector opcode 32) in
the middle of three ALU instructions. -/
def ucodeMidBad : List ControlFlowInstruction :=
  [ControlFlowInstruction.exec
    [ExecDataInstruction.alu (plainAlu 1), ExecDataInstruction.alu (plainAlu 32),
      ExecDataInstruction.alu (plainAlu 2)]]

/-- Microcode whose exec block holds a full vertex fetch at slot 3 followed
by a mini fetch. -/
def ucodeMini3 : List ControlFlowInstruction :=
  [ControlFlowInstruction.exec
    [ExecDataInstruction.vfetch (fullVfetch 3), ExecDataInstruction.vfetch miniVfetch]]

/-- Microcode whose first and only fetch is a mini fetch. -/
def ucodeMiniFirst : List ControlFlowInstruction :=
  [ControlFlowInstruction.exec [ExecDataInstruction.vfetch miniVfetch]]

/-- Microcode with a vertex fetch at slot 2 and a texture fetch at slot 5. -/
def ucodeBind25 : List ControlFlowInstruction :=
  [ControlFlowInstruction.exec
    [ExecDataInstruction.vfetch (fullVfetch 2), ExecDataInstruction.tfetch (sampleTfetch 5)]]

/-- A session state in which a full vertex fetch at slot 3 has already been
decoded. -/
def sessionPrev3 : TranslatorState :=
  { session0 with previous_vfetch_full_ := some (fullVfetch 3) }

theorem list_isEmpty_eq_nil {α : Type} (l : List α) : l.isEmpty = true ↔ l = [] := by
  cases l <;> simp

theorem getElem?_set_self_true (l : List Bool) (i : Nat) (h : i < l.length) :
    (l.set i true)[i]? = some true := by
  induction l generalizing i with
  | nil => simp at h
  | cons b bs ih =>
    cases i with
    | zero => simp
    | succ n => simpa using ih n (by simpa using h)

theorem getElem?_set_true_mono (l : List Bool) (j i : Nat) (h : l[i]? = some true) :
    (l.set j true)[i]? = some true := by
  induction l generalizing i j with
  | nil => simp at h
  | cons b bs ih =>
    cases j with
    | zero =>
      cases i with
      | zero => simp
      | succ n => simpa using h
    | succ m =>
      cases i with
      | zero => simpa using h
      | succ n => simpa using ih m n (by simpa using h)

theorem stepEffects_refl (st : TranslatorState) : StepEffects st st 0 :=
  ⟨by simp, ⟨[], by simp⟩, ⟨[], by simp⟩, rfl, rfl, fun _ h => h⟩

theorem stepEffects_trans {s1 s2 s3 : TranslatorState} {k1 k2 : Nat}
    (h1 : StepEffects s1 s2 k1) (h2 : StepEffects s2 s3 k2) :
    StepEffects s1 s3 (k1 + k2) := by
  obtain ⟨l1, ⟨t1, b1⟩, ⟨e1, er1⟩, v1, x1, f1⟩ := h1
  obtain ⟨l2, ⟨t2, b2⟩, ⟨e2, er2⟩, v2, x2, f2⟩ := h2
  refine ⟨by rw [l2, l1, Nat.add_assoc], ⟨t1 ++ t2, by rw [b2, b1, List.append_assoc]⟩,
    ⟨e1 ++ e2, by rw [er2, er1, List.append_assoc]⟩, v2.trans v1, x2.trans x1,
    fun i h => f2 i (f1 i h)⟩

theorem stepEffects_cast {s1 s2 : TranslatorState} {k k' : Nat}
    (h : StepEffects s1 s2 k) (e : k = k') : StepEffects s1 s2 k' := e ▸ h

theorem stepEffects_append (st : TranslatorState) (text : String) :
    StepEffects st (appendDisasmLine st text) 1 :=
  ⟨rfl, ⟨[text], rfl⟩, ⟨[], by simp [appendDisasmLine]⟩, rfl, rfl, fun _ h => h⟩

theorem stepEffects_emit (st : TranslatorState) (k : ErrorKind) (m : String) :
    StepEffects st (EmitTranslationError st k m) 0 :=
  ⟨by simp [EmitTranslationError], ⟨[], by simp [EmitTranslationError]⟩,
    ⟨[⟨k, m⟩], rfl⟩, rfl, rfl, fun _ h => h⟩

theorem stepEffects_setPrev (st : TranslatorState) (p : Option VertexFetchInstruction) :
    StepEffects st { st with previous_vfetch_full_ := p } 0 :=
  ⟨by simp, ⟨[], by simp⟩, ⟨[], by simp⟩, rfl, rfl, fun _ h => h⟩

theorem stepEffects_applyExport (st : TranslatorState) (op : AluInstruction) :
    StepEffects st (applyExport st op) 0 := by
  unfold applyExport
  split
  · exact ⟨by simp, ⟨[], by simp⟩, ⟨[], by simp⟩, rfl, rfl,
      fun i h => getElem?_set_true_mono _ _ _ h⟩
  · exact stepEffects_refl st

theorem stepEffects_vfetch (st : TranslatorState) (op : VertexFetchInstruction) :
    StepEffects st (TranslateVertexFetchInstruction st op).1 1 := by
  unfold TranslateVertexFetchInstruction
  by_cases hm : op.is_mini_fetch
  · simp only [hm, if_true]
    cases hp : st.previous_vfetch_full_ with
    | none =>
      exact stepEffects_cast
        (stepEffects_trans (stepEffects_emit st ErrorKind.InvalidEncoding
          "vfetch_mini with no preceding full vfetch") (stepEffects_append _ _))
        (Nat.zero_add 1)
    | some prev => exact stepEffects_append st _
  · simp only [hm, if_false]
    exact stepEffects_cast
      (stepEffects_trans (stepEffects_setPrev st (some op)) (stepEffects_append _ _))
      (Nat.zero_add 1)

theorem stepEffects_tfetch (st : TranslatorState) (op : TextureFetchInstruction) :
    StepEffects st (TranslateTextureFetchInstruction st op).1 1 :=
  stepEffects_append st _

theorem stepEffects_alu (st : TranslatorState) (op : AluInstruction) :
    StepEffects st (TranslateAluInstruction st op).1 1 := by
  unfold TranslateAluInstruction
  cases hop : op.op with
  | vector k =>
    cases hl : alu_vector_opcode_infos_[k]? with
    | some info =>
      simp only [hl]
      exact stepEffects_cast
        (stepEffects_trans (stepEffects_applyExport st op) (stepEffects_append _ _))
        (Nat.zero_add 1)
    | none =>
      simp only [hl]
      exact stepEffects_cast
        (stepEffects_trans (stepEffects_applyExport st op)
          (stepEffects_trans (stepEffects_emit _ _ _) (stepEffects_append _ _)))
        (by simp)
  | scalar k =>
    cases hl : alu_scalar_opcode_infos_[k]? with
    | some info =>
      simp only [hl]
      exact stepEffects_cast
        (stepEffects_trans (stepEffects_applyExport st op) (stepEffects_append _ _))
        (Nat.zero_add 1)
    | none =>
      simp only [hl]
      exact stepEffects_cast
        (stepEffects_trans (stepEffects_applyExport st op)
          (stepEffects_trans (stepEffects_emit _ _ _) (stepEffects_append _ _)))
        (by simp)

theorem stepEffects_execInstr (st : TranslatorState) (d : ExecDataInstruction) :
    StepEffects st (TranslateExecInstruction st d).1 1 := by
  cases d with
  | vfetch op => exact stepEffects_vfetch st op
  | tfetch op => exact stepEffects_tfetch st op
  | alu op => exact stepEffects_alu st op

theorem stepEffects_execList (l : List ExecDataInstruction) :
    ∀ st : TranslatorState, StepEffects st (TranslateExecInstructions st l).1 l.length := by
  induction l with
  | nil => intro st; exact stepEffects_refl st
  | cons d rest ih =>
    intro st
    exact stepEffects_cast
      (stepEffects_trans (stepEffects_execInstr st d) (ih (TranslateExecInstruction st d).1))
      (by rw [List.length_cons, Nat.add_comm])

theorem stepEffects_cf (st : TranslatorState) (cf : ControlFlowInstruction) :
    StepEffects st (TranslateControlFlowInstruction st cf).1 (1 + (execData cf).length) := by
  cases cf with
  | nop => exact stepEffects_append st "cnop"
  | exec l =>
    exact stepEffects_trans (stepEffects_append st "exec") (stepEffects_execList l _)
  | condExec l =>
    exact stepEffects_trans (stepEffects_append st "cexec") (stepEffects_execList l _)
  | condExecPred c l =>
    exact stepEffects_trans (stepEffects_append st "cexec_pred") (stepEffects_execList l _)
  | loopStart t => exact stepEffects_append st "loop_start"
  | loopEnd t => exact stepEffects_append st "loop_end"
  | condCall t => exact stepEffects_append st "ccall"
  | ret => exact stepEffects_append st "cret"
  | condJmp t => exact stepEffects_append st "cjmp"
  | alloc => exact stepEffects_append st "alloc"

theorem stepEffects_runBlocks (u : List ControlFlowInstruction) :
    ∀ (labels : List Nat) (st : TranslatorState) (i : Nat),
      StepEffects st (runBlocks labels st i u).1 (decodeSteps u) := by
  induction u with
  | nil => intro labels st i; exact stepEffects_refl st
  | cons cf rest ih =>
    intro labels st i
    exact stepEffects_cast
      (stepEffects_trans (stepEffects_cf st cf)
        (ih labels (blockStep labels i st cf).1 (i + 1)))
      (by simp [decodeSteps])

theorem stepEffects_translateBlocks (st : TranslatorState) (u : List ControlFlowInstruction) :
    StepEffects st (TranslateBlocks st u).1 (decodeSteps u) :=
  stepEffects_runBlocks u (gatherLabels u) st 0

theorem mem_addLabel (ls : List Nat) (a x : Nat) : x ∈ addLabel ls a ↔ x ∈ ls ∨ x = a := by
  by_cases h : a ∈ ls
  · simp only [addLabel, if_pos h]
    exact ⟨fun hx => Or.inl hx, fun hx => hx.elim id (fun e => e ▸ h)⟩
  · simp [addLabel, if_neg h]

theorem nodup_addLabel (ls : List Nat) (a : Nat) (h : ls.Nodup) : (addLabel ls a).Nodup := by
  by_cases ha : a ∈ ls
  · simpa [addLabel, if_pos ha] using h
  · simp only [addLabel, if_neg ha]
    exact h.append (List.nodup_singleton a)
      (fun x hx hxa => ha ((List.mem_singleton.mp hxa) ▸ hx))

theorem mem_foldl_addLabel (ts : List Nat) :
    ∀ (ls : List Nat) (x : Nat), x ∈ ts.foldl addLabel ls ↔ x ∈ ls ∨ x ∈ ts := by
  induction ts with
  | nil => intro ls x; simp
  | cons t ts ih =>
    intro ls x
    rw [List.foldl_cons, ih, mem_addLabel]
    simp [List.mem_cons]
    tauto

theorem nodup_foldl_addLabel (ts : List Nat) :
    ∀ ls : List Nat, ls.Nodup → (ts.foldl addLabel ls).Nodup := by
  induction ts with
  | nil => intro ls h; exact h
  | cons t ts ih =>
    intro ls h
    exact ih (addLabel ls t) (nodup_addLabel ls t h)

theorem mem_gatherLabelsAux (u : List ControlFlowInstruction) :
    ∀ (ls : List Nat) (x : Nat),
      x ∈ gatherLabelsAux ls u ↔ x ∈ ls ∨ ∃ cf ∈ u, x ∈ cfTargets cf := by
  induction u with
  | nil => intro ls x; simp [gatherLabelsAux]
  | cons cf rest ih =>
    intro ls x
    rw [gatherLabelsAux, ih, mem_foldl_addLabel]
    simp only [List.mem_cons]
    constructor
    · rintro ((hx | hx) | ⟨c, hc, hx⟩)
      · exact Or.inl hx
      · exact Or.inr ⟨cf, Or.inl rfl, hx⟩
      · exact Or.inr ⟨c, Or.inr hc, hx⟩
    · rintro (hx | ⟨c, (rfl | hc), hx⟩)
      · exact Or.inl (Or.inl hx)
      · exact Or.inl (Or.inr hx)
      · exact Or.inr ⟨c, hc, hx⟩

theorem nodup_gatherLabelsAux (u : List ControlFlowInstruction) :
    ∀ ls : List Nat, ls.Nodup → (gatherLabelsAux ls u).Nodup := by
  induction u with
  | nil => intro ls h; exact h
  | cons cf rest ih =>
    intro ls h
    exact ih _ (nodup_foldl_addLabel (cfTargets cf) ls h)

theorem mem_cfTargets (cf : ControlFlowInstruction) (a : Nat) :
    a ∈ cfTargets cf ↔ ReferencesAddr cf a := by
  cases cf <;> simp [cfTargets, ReferencesAddr, eq_comm]

theorem mem_gatherLabels (u : List ControlFlowInstruction) (a : Nat) :
    a ∈ gatherLabels u ↔ ∃ cf ∈ u, ReferencesAddr cf a := by
  rw [gatherLabels, mem_gatherLabelsAux]
  simp [mem_cfTargets]

theorem nodup_gatherLabels (u : List ControlFlowInstruction) : (gatherLabels u).Nodup :=
  nodup_gatherLabelsAux u [] List.nodup_nil

theorem label_not_mem_vfetch (st : TranslatorState) (op : VertexFetchInstruction) (a : Nat) :
    Event.label a ∉ (TranslateVertexFetchInstruction st op).2 := by
  unfold TranslateVertexFetchInstruction
  by_cases hm : op.is_mini_fetch
  · simp only [hm, if_true]
    cases hp : st.previous_vfetch_full_ <;> simp
  · simp [hm]

theorem label_not_mem_tfetch (st : TranslatorState) (op : TextureFetchInstruction) (a : Nat) :
    Event.label a ∉ (TranslateTextureFetchInstruction st op).2 := by
  simp [TranslateTextureFetchInstruction]

theorem label_not_mem_alu (st : TranslatorState) (op : AluInstruction) (a : Nat) :
    Event.label a ∉ (TranslateAluInstruction st op).2 := by
  unfold TranslateAluInstruction
  cases hop : op.op with
  | vector k => cases hl : alu_vector_opcode_infos_[k]? <;> simp [hl]
  | scalar k => cases hl : alu_scalar_opcode_infos_[k]? <;> simp [hl]

theorem label_not_mem_execInstr (st : TranslatorState) (d : ExecDataInstruction) (a : Nat) :
    Event.label a ∉ (TranslateExecInstruction st d).2 := by
  cases d with
  | vfetch op => exact label_not_mem_vfetch st op a
  | tfetch op => exact label_not_mem_tfetch st op a
  | alu op => exact label_not_mem_alu st op a

theorem label_not_mem_execList (l : List ExecDataInstruction) :
    ∀ (st : TranslatorState) (a : Nat), Event.label a ∉ (TranslateExecInstructions st l).2 := by
  induction l with
  | nil => intro st a; simp [TranslateExecInstructions]
  | cons d rest ih =>
    intro st a
    show Event.label a ∉
      (TranslateExecInstruction st d).2 ++
        (TranslateExecInstructions (TranslateExecInstruction st d).1 rest).2
    rw [List.mem_append]
    rintro (h | h)
    · exact label_not_mem_execInstr st d a h
    · exact ih _ a h

theorem label_not_mem_cf (st : TranslatorState) (cf : ControlFlowInstruction) (a : Nat) :
    Event.label a ∉ (TranslateControlFlowInstruction st cf).2 := by
  cases cf with
  | exec l =>
    intro h
    rcases List.mem_cons.mp h with h1 | h1
    · exact Event.noConfusion h1
    · rcases List.mem_append.mp h1 with h2 | h2
      · exact label_not_mem_execList l _ a h2
      · simp at h2
  | condExec l =>
    intro h
    rcases List.mem_cons.mp h with h1 | h1
    · exact Event.noConfusion h1
    · rcases List.mem_append.mp h1 with h2 | h2
      · exact label_not_mem_execList l _ a h2
      · simp at h2
  | condExecPred c l =>
    intro h
    rcases List.mem_cons.mp h with h1 | h1
    · exact Event.noConfusion h1
    · rcases List.mem_append.mp h1 with h2 | h2
      · exact label_not_mem_execList l _ a h2
      · simp at h2
  | nop => simp [TranslateControlFlowInstruction]
  | loopStart t => simp [TranslateControlFlowInstruction]
  | loopEnd t => simp [TranslateControlFlowInstruction]
  | condCall t => simp [TranslateControlFlowInstruction]
  | ret => simp [TranslateControlFlowInstruction]
  | condJmp t => simp [TranslateControlFlowInstruction]
  | alloc => simp [TranslateControlFlowInstruction]

theorem blockStep_events_of_label (labels : List Nat) (i : Nat) (st : TranslatorState)
    (cf : ControlFlowInstruction) (h : i ∈ labels) :
    (blockStep labels i st cf).2 =
      Event.label i :: (TranslateControlFlowInstruction st cf).2 := by
  simp [blockStep, if_pos h]

theorem slots_insertVertexAttrib (bs : List VertexBinding) (slot : Nat) (a : VertexAttribute) :
    (insertVertexAttrib bs slot a).map VertexBinding.fetch_constant =
      if slot ∈ bs.map VertexBinding.fetch_constant then bs.map VertexBinding.fetch_constant
      else bs.map VertexBinding.fetch_constant ++ [slot] := by
  induction bs with
  | nil => simp [insertVertexAttrib]
  | cons b bs ih =>
    by_cases h : b.fetch_constant = slot
    · subst h
      simp [insertVertexAttrib]
    · have h2 : ¬slot = b.fetch_constant := fun e => h e.symm
      simp only [insertVertexAttrib, if_neg h, List.map_cons, ih, List.mem_cons, h2,
        false_or]
      split_ifs <;> simp

theorem mem_slots_insertVertexAttrib_self (bs : List VertexBinding) (slot : Nat)
    (a : VertexAttribute) :
    slot ∈ (insertVertexAttrib bs slot a).map VertexBinding.fetch_constant := by
  rw [slots_insertVertexAttrib]
  split_ifs with h
  · exact h
  · simp

theorem mem_slots_insertVertexAttrib_mono {s : Nat} (bs : List VertexBinding) (slot : Nat)
    (a : VertexAttribute) (h : s ∈ bs.map VertexBinding.fetch_constant) :
    s ∈ (insertVertexAttrib bs slot a).map VertexBinding.fetch_constant := by
  rw [slots_insertVertexAttrib]
  split_ifs <;> simp [h]

theorem nodup_slots_insertVertexAttrib (bs : List VertexBinding) (slot : Nat)
    (a : VertexAttribute) (h : (bs.map VertexBinding.fetch_constant).Nodup) :
    ((insertVertexAttrib bs slot a).map VertexBinding.fetch_constant).Nodup := by
  rw [slots_insertVertexAttrib]
  split_ifs with hm
  · exact h
  · exact h.append (List.nodup_singleton slot)
      (fun x hx hxa => hm ((List.mem_singleton.mp hxa) ▸ hx))

theorem slots_insertTextureBinding (bs : List TextureBinding) (slot dim : Nat) :
    (insertTextureBinding bs slot dim).map TextureBinding.fetch_constant =
      if slot ∈ bs.map TextureBinding.fetch_constant then bs.map TextureBinding.fetch_constant
      else bs.map TextureBinding.fetch_constant ++ [slot] := by
  induction bs with
  | nil => simp [insertTextureBinding]
  | cons b bs ih =>
    by_cases h : b.fetch_constant = slot
    · subst h
      simp [insertTextureBinding]
    · have h2 : ¬slot = b.fetch_constant := fun e => h e.symm
      simp only [insertTextureBinding, if_neg h, List.map_cons, ih, List.mem_cons, h2,
        false_or]
      split_ifs <;> simp

theorem mem_slots_insertTextureBinding_self (bs : List TextureBinding) (slot dim : Nat) :
    slot ∈ (insertTextureBinding bs slot dim).map TextureBinding.fetch_constant := by
  rw [slots_insertTextureBinding]
  split_ifs with h
  · exact h
  · simp

theorem mem_slots_insertTextureBinding_mono {s : Nat} (bs : List TextureBinding)
    (slot dim : Nat) (h : s ∈ bs.map TextureBinding.fetch_constant) :
    s ∈ (insertTextureBinding bs slot dim).map TextureBinding.fetch_constant := by
  rw [slots_insertTextureBinding]
  split_ifs <;> simp [h]

theorem nodup_slots_insertTextureBinding (bs : List TextureBinding) (slot dim : Nat)
    (h : (bs.map TextureBinding.fetch_constant).Nodup) :
    ((insertTextureBinding bs slot dim).map TextureBinding.fetch_constant).Nodup := by
  rw [slots_insertTextureBinding]
  split_ifs with hm
  · exact h
  · exact h.append (List.nodup_singleton slot)
      (fun x hx hxa => hm ((List.mem_singleton.mp hxa) ▸ hx))

theorem gatherExecData_vb_mono (l : List ExecDataInstruction) :
    ∀ (st : TranslatorState) (prev : Option VertexFetchInstruction) (s : Nat),
      s ∈ st.vertex_bindings_.map VertexBinding.fetch_constant →
      s ∈ ((gatherExecData st prev l).1).vertex_bindings_.map VertexBinding.fetch_constant := by
  induction l with
  | nil => intro st prev s h; exact h
  | cons d rest ih =>
    intro st prev s h
    cases d with
    | vfetch op =>
      by_cases hm : op.is_mini_fetch
      · simp only [gatherExecData, hm, if_true]
        cases prev with
        | none => exact ih st none s h
        | some p => exact ih _ _ s (mem_slots_insertVertexAttrib_mono _ _ _ h)
      · simp only [gatherExecData, hm, if_false]
        exact ih _ _ s (mem_slots_insertVertexAttrib_mono _ _ _ h)
    | tfetch op => exact ih _ prev s h
    | alu op => exact ih st prev s h

theorem gatherExecData_tb_mono (l : List ExecDataInstruction) :
    ∀ (st : TranslatorState) (prev : Option VertexFetchInstruction) (s : Nat),
      s ∈ st.texture_bindings_.map TextureBinding.fetch_constant →
      s ∈ ((gatherExecData st prev l).1).texture_bindings_.map TextureBinding.fetch_constant := by
  induction l with
  | nil => intro st prev s h; exact h
  | cons d rest ih =>
    intro st prev s h
    cases d with
    | vfetch op =>
      by_cases hm : op.is_mini_fetch
      · simp only [gatherExecData, hm, if_true]
        cases prev with
        | none => exact ih st none s h
        | some p => exact ih _ _ s h
      · simp only [gatherExecData, hm, if_false]
        exact ih _ _ s h
    | tfetch op => exact ih _ prev s (mem_slots_insertTextureBinding_mono _ _ _ h)
    | alu op => exact ih st prev s h

theorem gatherExecData_vb_complete (l : List ExecDataInstruction) :
    ∀ (st : TranslatorState) (prev : Option VertexFetchInstruction) (s : Nat),
      s ∈ l.flatMap dataFullVertexSlots →
      s ∈ ((gatherExecData st prev l).1).vertex_bindings_.map VertexBinding.fetch_constant := by
  induction l with
  | nil => intro st prev s h; simp at h
  | cons d rest ih =>
    intro st prev s h
    rw [List.flatMap_cons, List.mem_append] at h
    cases d with
    | vfetch op =>
      by_cases hm : op.is_mini_fetch
      · simp only [gatherExecData, hm, if_true]
        have hrest : s ∈ rest.flatMap dataFullVertexSlots := by
          rcases h with h1 | h1
          · simp [dataFullVertexSlots, hm] at h1
          · exact h1
        cases prev with
        | none => exact ih st none s hrest
        | some p => exact ih _ _ s hrest
      · simp only [gatherExecData, hm, if_false]
        rcases h with h1 | h1
        · simp [dataFullVertexSlots, hm] at h1
          subst h1
          exact gatherExecData_vb_mono rest _ _ _
            (mem_slots_insertVertexAttrib_self _ _ _)
        · exact ih _ _ s h1
    | tfetch op =>
      have hrest : s ∈ rest.flatMap dataFullVertexSlots := by
        rcases h with h1 | h1
        · simp [dataFullVertexSlots] at h1
        · exact h1
      exact ih _ prev s hrest
    | alu op =>
      have hrest : s ∈ rest.flatMap dataFullVertexSlots := by
        rcases h with h1 | h1
        · simp [dataFullVertexSlots] at h1
        · exact h1
      exact ih st prev s hrest

theorem gatherExecData_tb_complete (l : List ExecDataInstruction) :
    ∀ (st : TranslatorState) (prev : Option VertexFetchInstruction) (s : Nat),
      s ∈ l.flatMap dataTextureSlots →
      s ∈ ((gatherExecData st prev l).1).texture_bindings_.map TextureBinding.fetch_constant := by
  induction l with
  | nil => intro st prev s h; simp at h
  | cons d rest ih =>
    intro st prev s h
    rw [List.flatMap_cons, List.mem_append] at h
    cases d with
    | vfetch op =>
      have hrest : s ∈ rest.flatMap dataTextureSlots := by
        rcases h with h1 | h1
        · simp [dataTextureSlots] at h1
        · exact h1
      by_cases hm : op.is_mini_fetch
      · simp only [gatherExecData, hm, if_true]
        cases prev with
        | none => exact ih st none s hrest
        | some p => exact ih _ _ s hrest
      · simp only [gatherExecData, hm, if_false]
        exact ih _ _ s hrest
    | tfetch op =>
      rcases h with h1 | h1
      · simp only [dataTextureSlots, List.mem_singleton] at h1
        subst h1
        exact gatherExecData_tb_mono rest _ _ _
          (mem_slots_insertTextureBinding_self _ _ _)
      · exact ih _ prev s h1
    | alu op =>
      have hrest : s ∈ rest.flatMap dataTextureSlots := by
        rcases h with h1 | h1
        · simp [dataTextureSlots] at h1
        · exact h1
      exact ih st prev s hrest

theorem gatherExecData_vb_nodup (l : List ExecDataInstruction) :
    ∀ (st : TranslatorState) (prev : Option VertexFetchInstruction),
      (st.vertex_bindings_.map VertexBinding.fetch_constant).Nodup →
      (((gatherExecData st prev l).1).vertex_bindings_.map VertexBinding.fetch_constant).Nodup := by
  induction l with
  | nil => intro st prev h; exact h
  | cons d rest ih =>
    intro st prev h
    cases d with
    | vfetch op =>
      by_cases hm : op.is_mini_fetch
      · simp only [gatherExecData, hm, if_true]
        cases prev with
        | none => exact ih st none h
        | some p => exact ih _ _ (nodup_slots_insertVertexAttrib _ _ _ h)
      · simp only [gatherExecData, hm, if_false]
        exact ih _ _ (nodup_slots_insertVertexAttrib _ _ _ h)
    | tfetch op => exact ih _ prev h
    | alu op => exact ih st prev h

theorem gatherExecData_tb_nodup (l : List ExecDataInstruction) :
    ∀ (st : TranslatorState) (prev : Option VertexFetchInstruction),
      (st.texture_bindings_.map TextureBinding.fetch_constant).Nodup →
      (((gatherExecData st prev l).1).texture_bindings_.map TextureBinding.fetch_constant).Nodup := by
  induction l with
  | nil => intro st prev h; exact h
  | cons d rest ih =>
    intro st prev h
    cases d with
    | vfetch op =>
      by_cases hm : op.is_mini_fetch
      · simp only [gatherExecData, hm, if_true]
        cases prev with
        | none => exact ih st none h
        | some p => exact ih _ _ h
      · simp only [gatherExecData, hm, if_false]
        exact ih _ _ h
    | tfetch op => exact ih _ prev (nodup_slots_insertTextureBinding _ _ _ h)
    | alu op => exact ih st prev h

theorem fullVertexSlots_cons (cf : ControlFlowInstruction) (rest : List ControlFlowInstruction) :
    fullVertexSlots (cf :: rest) =
      (execData cf).flatMap dataFullVertexSlots ++ fullVertexSlots rest := by
  simp [fullVertexSlots, allExecData]

theorem textureSlots_cons (cf : ControlFlowInstruction) (rest : List ControlFlowInstruction) :
    textureSlotsOf (cf :: rest) =
      (execData cf).flatMap dataTextureSlots ++ textureSlotsOf rest := by
  simp [textureSlotsOf, allExecData]

theorem gatherPass_vb_mono (u : List ControlFlowInstruction) :
    ∀ (st : TranslatorState) (prev : Option VertexFetchInstruction) (s : Nat),
      s ∈ st.vertex_bindings_.map VertexBinding.fetch_constant →
      s ∈ ((gatherPass st prev u).1).vertex_bindings_.map VertexBinding.fetch_constant := by
  induction u with
  | nil => intro st prev s h; exact h
  | cons cf rest ih =>
    intro st prev s h
    exact ih _ _ s (gatherExecData_vb_mono (execData cf) st prev s h)

theorem gatherPass_tb_mono (u : List ControlFlowInstruction) :
    ∀ (st : TranslatorState) (prev : Option VertexFetchInstruction) (s : Nat),
      s ∈ st.texture_bindings_.map TextureBinding.fetch_constant →
      s ∈ ((gatherPass st prev u).1).texture_bindings_.map TextureBinding.fetch_constant := by
  induction u with
  | nil => intro st prev s h; exact h
  | cons cf rest ih =>
    intro st prev s h
    exact ih _ _ s (gatherExecData_tb_mono (execData cf) st prev s h)

theorem gatherPass_vb_complete (u : List ControlFlowInstruction) :
    ∀ (st : TranslatorState) (prev : Option VertexFetchInstruction) (s : Nat),
      s ∈ fullVertexSlots u →
      s ∈ ((gatherPass st prev u).1).vertex_bindings_.map VertexBinding.fetch_constant := by
  induction u with
  | nil => intro st prev s h; simp [fullVertexSlots, allExecData] at h
  | cons cf rest ih =>
    intro st prev s h
    rw [fullVertexSlots_cons, List.mem_append] at h
    rcases h with h1 | h1
    · exact gatherPass_vb_mono rest _ _ s
        (gatherExecData_vb_complete (execData cf) st prev s h1)
    · exact ih _ _ s h1

theorem gatherPass_tb_complete (u : List ControlFlowInstruction) :
    ∀ (st : TranslatorState) (prev : Option VertexFetchInstruction) (s : Nat),
      s ∈ textureSlotsOf u →
      s ∈ ((gatherPass st prev u).1).texture_bindings_.map TextureBinding.fetch_constant := by
  induction u with
  | nil => intro st prev s h; simp [textureSlotsOf, allExecData] at h
  | cons cf rest ih =>
    intro st prev s h
    rw [textureSlots_cons, List.mem_append] at h
    rcases h with h1 | h1
    · exact gatherPass_tb_mono rest _ _ s
        (gatherExecData_tb_complete (execData cf) st prev s h1)
    · exact ih _ _ s h1

theorem gatherPass_vb_nodup (u : List ControlFlowInstruction) :
    ∀ (st : TranslatorState) (prev : Option VertexFetchInstruction),
      (st.vertex_bindings_.map VertexBinding.fetch_constant).Nodup →
      (((gatherPass st prev u).1).vertex_bindings_.map VertexBinding.fetch_constant).Nodup := by
  induction u with
  | nil => intro st prev h; exact h
  | cons cf rest ih =>
    intro st prev h
    exact ih _ _ (gatherExecData_vb_nodup (execData cf) st prev h)

theorem gatherPass_tb_nodup (u : List ControlFlowInstruction) :
    ∀ (st : TranslatorState) (prev : Option VertexFetchInstruction),
      (st.texture_bindings_.map TextureBinding.fetch_constant).Nodup →
      (((gatherPass st prev u).1).texture_bindings_.map TextureBinding.fetch_constant).Nodup := by
  induction u with
  | nil => intro st prev h; exact h
  | cons cf rest ih =>
    intro st prev h
    exact ih _ _ (gatherExecData_tb_nodup (execData cf) st prev h)

theorem alu_vector_table_length : alu_vector_opcode_infos_.length = 32 := by
  simp [alu_vector_opcode_infos_]

theorem alu_scalar_table_length : alu_scalar_opcode_infos_.length = 64 := by
  simp [alu_scalar_opcode_infos_]

theorem alu_vector_lookup_some {k : Nat} (h : k < 32) :
    alu_vector_opcode_infos_[k]? =
      some (alu_vector_opcode_infos_.get ⟨k, by rw [alu_vector_table_length]; exact h⟩) := by
  rw [List.getElem?_eq_getElem (by rw [alu_vector_table_length]; exact h)]
  rfl

theorem alu_scalar_lookup_some {k : Nat} (h : k < 64) :
    alu_scalar_opcode_infos_[k]? =
      some (alu_scalar_opcode_infos_.get ⟨k, by rw [alu_scalar_table_length]; exact h⟩) := by
  rw [List.getElem?_eq_getElem (by rw [alu_scalar_table_length]; exact h)]
  rfl

theorem alu_vector_lookup_none {k : Nat} (h : 32 ≤ k) :
    alu_vector_opcode_infos_[k]? = none := by
  rw [List.getElem?_eq_none]
  rw [alu_vector_table_length]
  exact h

theorem alu_scalar_lookup_none {k : Nat} (h : 64 ≤ k) :
    alu_scalar_opcode_infos_[k]? = none := by
  rw [List.getElem?_eq_none]
  rw [alu_scalar_table_length]
  exact h

theorem applyExport_errors (st : TranslatorState) (op : AluInstruction) :
    (applyExport st op).errors_ = st.errors_ := by
  unfold applyExport
  split <;> rfl

theorem applyExport_line (st : TranslatorState) (op : AluInstruction) :
    (applyExport st op).ucode_disasm_line_number_ = st.ucode_disasm_line_number_ := by
  unfold applyExport
  split <;> rfl

theorem translateAlu_flags (st : TranslatorState) (op : AluInstruction) :
    (TranslateAluInstruction st op).1.writes_color_targets_ =
      (applyExport st op).writes_color_targets_ := by
  unfold TranslateAluInstruction
  cases hop : op.op with
  | vector k =>
    cases hl : alu_vector_opcode_infos_[k]? <;>
      simp [hl, appendDisasmLine, EmitTranslationError]
  | scalar k =>
    cases hl : alu_scalar_opcode_infos_[k]? <;>
      simp [hl, appendDisasmLine, EmitTranslationError]

theorem applyExport_sets_flag (st : TranslatorState) (op : AluInstruction) (i : Nat)
    (h4 : st.writes_color_targets_.length = 4) (he : op.is_export = true)
    (hd : op.export_dest = i) (hi : i < 4) :
    (applyExport st op).writes_color_targets_[i]? = some true := by
  subst hd
  have hc : (op.is_export && decide (op.export_dest < 4)) = true := by
    rw [he, decide_eq_true hi]
    rfl
  unfold applyExport
  rw [if_pos hc]
  exact getElem?_set_self_true _ _ (by rw [h4]; exact hi)

/-- Claim C1: `Translate` is the entry point of a translator session; for
every shader input it drives `Reset`, then the binding-gatherer pass, then
the linearizer pass over the blocks (whose backend hook firings make up the
trace between `startTranslation` and `completeTranslation`), then
`CompleteTranslation`, and it returns success if and only if the accumulated
error list is empty at that point. -/
theorem translate_pipeline_order_and_success (session : TranslatorState) (ty : ShaderType)
    (u : List ControlFlowInstruction) :
    Translate session ty u =
      { success :=
          (TranslateBlocks (GatherBindingInformation
            { Reset session with shader_type_ := ty } u) u).1.errors_.isEmpty
        binary :=
          CompleteTranslation (TranslateBlocks (GatherBindingInformation
            { Reset session with shader_type_ := ty } u) u).1
        final :=
          (TranslateBlocks (GatherBindingInformation
            { Reset session with shader_type_ := ty } u) u).1
        trace :=
          Event.reset :: Event.startTranslation ::
            (TranslateBlocks (GatherBindingInformation
              { Reset session with shader_type_ := ty } u) u).2 ++
              [Event.completeTranslation] } ∧
    ((Translate session ty u).success = true ↔
      (Translate session ty u).final.errors_ = []) := by
  constructor
  · rfl
  · exact list_isEmpty_eq_nil _

/-- Claim C2: the label set computed by the pre-pass holds exactly the
addresses referenced by `LoopStart`/`LoopEnd`, `CondCall` or `CondJmp`
instructions, with no duplicates, and in the main pass the `ProcessLabel`
event for an address in the label set comes before every other event of
that address's step (the dispatched translation itself never produces a
label event). -/
theorem label_set_exact_and_label_first :
    (∀ (u : List ControlFlowInstruction) (a : Nat),
      a ∈ gatherLabels u ↔ ∃ cf ∈ u, ReferencesAddr cf a) ∧
    (∀ u : List ControlFlowInstruction, (gatherLabels u).Nodup) ∧
    (∀ (labels : List Nat) (i : Nat) (st : TranslatorState) (cf : ControlFlowInstruction),
      i ∈ labels →
      (blockStep labels i st cf).2 =
        Event.label i :: (TranslateControlFlowInstruction st cf).2) ∧
    (∀ (st : TranslatorState) (cf : ControlFlowInstruction) (a : Nat),
      Event.label a ∉ (TranslateControlFlowInstruction st cf).2) :=
  ⟨mem_gatherLabels, nodup_gatherLabels, blockStep_events_of_label, label_not_mem_cf⟩

theorem label_set_exact_and_label_first_witness :
    (blockStep [2] 2 session0 ControlFlowInstruction.nop).2 =
      Event.label 2 :: (TranslateControlFlowInstruction session0 ControlFlowInstruction.nop).2 :=
  label_set_exact_and_label_first.2.2.1 [2] 2 session0 ControlFlowInstruction.nop
    (by decide)

/-- Claim C3: the binding gatherer completes the vertex and texture binding
sets (every explicitly referenced fetch-constant slot is present,
deduplicated by slot) before the linearizer pass runs, and the linearizer —
the only pass that fires `ProcessLabel`, `ProcessExecInstructionBegin` or
any per-instruction hook — leaves both binding sets untouched, so the
bindings a hook observes are already complete. -/
theorem bindings_complete_before_hooks (st : TranslatorState)
    (u : List ControlFlowInstruction) :
    (∀ s : Nat, s ∈ fullVertexSlots u → s ∈ vbSlots (GatherBindingInformation st u)) ∧
    (∀ s : Nat, s ∈ textureSlotsOf u → s ∈ tbSlots (GatherBindingInformation st u)) ∧
    (st.vertex_bindings_ = [] → (vbSlots (GatherBindingInformation st u)).Nodup) ∧
    (st.texture_bindings_ = [] → (tbSlots (GatherBindingInformation st u)).Nodup) ∧
    (TranslateBlocks (GatherBindingInformation st u) u).1.vertex_bindings_ =
      (GatherBindingInformation st u).vertex_bindings_ ∧
    (TranslateBlocks (GatherBindingInformation st u) u).1.texture_bindings_ =
      (GatherBindingInformation st u).texture_bindings_ := by
  refine ⟨fun s h => gatherPass_vb_complete u st none s h,
    fun s h => gatherPass_tb_complete u st none s h,
    fun hv => gatherPass_vb_nodup u st none (by rw [hv]; exact List.nodup_nil),
    fun ht => gatherPass_tb_nodup u st none (by rw [ht]; exact List.nodup_nil),
    ?_, ?_⟩
  · exact (stepEffects_translateBlocks (GatherBindingInformation st u) u).2.2.2.1
  · exact (stepEffects_translateBlocks (GatherBindingInformation st u) u).2.2.2.2.1

theorem bindings_complete_before_hooks_witness :
    2 ∈ vbSlots (GatherBindingInformation session0 ucodeBind25) ∧
    5 ∈ tbSlots (GatherBindingInformation session0 ucodeBind25) :=
  ⟨(bindings_complete_before_hooks session0 ucodeBind25).1 2 (by decide),
    (bindings_complete_before_hooks session0 ucodeBind25).2.1 5 (by decide)⟩

/-- Claim C4: a vector ALU opcode in 0-31 (scalar in 0-63) is decoded using
the matching opcode-table entry indexed by the raw opcode field, leaving the
error list unchanged; an opcode outside that range fails with an
`UnimplementedInstruction` error, the error list grows by exactly one entry,
and the disassembly still advances by one line in every case. -/
theorem alu_opcode_table_bounds (st : TranslatorState) (op : AluInstruction) :
    (∀ k : Nat, op.op = AluOp.vector k → k < 32 →
      ∃ info, alu_vector_opcode_infos_[k]? = some info ∧
        TranslateAluInstruction st op =
          (appendDisasmLine (applyExport st op) ("  " ++ info.name), [Event.alu]) ∧
        (TranslateAluInstruction st op).1.errors_ = st.errors_ ∧
        (TranslateAluInstruction st op).1.ucode_disasm_line_number_ =
          st.ucode_disasm_line_number_ + 1) ∧
    (∀ k : Nat, op.op = AluOp.vector k → 32 ≤ k →
      (TranslateAluInstruction st op).1.errors_ =
        st.errors_ ++
          [⟨ErrorKind.UnimplementedInstruction, "unimplemented alu vector opcode"⟩] ∧
      (TranslateAluInstruction st op).1.ucode_disasm_line_number_ =
        st.ucode_disasm_line_number_ + 1) ∧
    (∀ k : Nat, op.op = AluOp.scalar k → k < 64 →
      ∃ info, alu_scalar_opcode_infos_[k]? = some info ∧
        TranslateAluInstruction st op =
          (appendDisasmLine (applyExport st op) ("  " ++ info.name), [Event.alu]) ∧
        (TranslateAluInstruction st op).1.errors_ = st.errors_ ∧
        (TranslateAluInstruction st op).1.ucode_disasm_line_number_ =
          st.ucode_disasm_line_number_ + 1) ∧
    (∀ k : Nat, op.op = AluOp.scalar k → 64 ≤ k →
      (TranslateAluInstruction st op).1.errors_ =
        st.errors_ ++
          [⟨ErrorKind.UnimplementedInstruction, "unimplemented alu scalar opcode"⟩] ∧
      (TranslateAluInstruction st op).1.ucode_disasm_line_number_ =
        st.ucode_disasm_line_number_ + 1) := by
  refine ⟨?_, ?_, ?_, ?_⟩
  · intro k hop hk
    have hl := alu_vector_lookup_some hk
    have heq : TranslateAluInstruction st op =
        (appendDisasmLine (applyExport st op)
          ("  " ++ (alu_vector_opcode_infos_.get
            ⟨k, by rw [alu_vector_table_length]; exact hk⟩).name), [Event.alu]) := by
      simp only [TranslateAluInstruction, hop, hl]
    exact ⟨_, hl, heq, by rw [heq]; simp [appendDisasmLine, applyExport_errors],
      by rw [heq]; simp [appendDisasmLine, applyExport_line]⟩
  · intro k hop hk
    have hl := alu_vector_lookup_none hk
    have heq : TranslateAluInstruction st op =
        (appendDisasmLine
          (EmitTranslationError (applyExport st op) ErrorKind.UnimplementedInstruction
            "unimplemented alu vector opcode")
          "  <unimplemented alu vector opcode>", []) := by
      simp only [TranslateAluInstruction, hop, hl]
    constructor
    · rw [heq]
      simp [appendDisasmLine, EmitTranslationError, applyExport_errors]
    · rw [heq]
      simp [appendDisasmLine, EmitTranslationError, applyExport_line]
  · intro k hop hk
    have hl := alu_scalar_lookup_some hk
    have heq : TranslateAluInstruction st op =
        (appendDisasmLine (applyExport st op)
          ("  " ++ (alu_scalar_opcode_infos_.get
            ⟨k, by rw [alu_scalar_table_length]; exact hk⟩).name), [Event.alu]) := by
      simp only [TranslateAluInstruction, hop, hl]
    exact ⟨_, hl, heq, by rw [heq]; simp [appendDisasmLine, applyExport_errors],
      by rw [heq]; simp [appendDisasmLine, applyExport_line]⟩
  · intro k hop hk
    have hl := alu_scalar_lookup_none hk
    have heq : TranslateAluInstruction st op =
        (appendDisasmLine
          (EmitTranslationError (applyExport st op) ErrorKind.UnimplementedInstruction
            "unimplemented alu scalar opcode")
          "  <unimplemented alu scalar opcode>", []) := by
      simp only [TranslateAluInstruction, hop, hl]
    constructor
    · rw [heq]
      simp [appendDisasmLine, EmitTranslationError, applyExport_errors]
    · rw [heq]
      simp [appendDisasmLine, EmitTranslationError, applyExport_line]

theorem alu_opcode_table_bounds_witness :
    (∃ info, alu_vector_opcode_infos_[31]? = some info ∧
      TranslateAluInstruction session0 (plainAlu 31) =
        (appendDisasmLine (applyExport session0 (plainAlu 31)) ("  " ++ info.name),
          [Event.alu]) ∧
      (TranslateAluInstruction session0 (plainAlu 31)).1.errors_ = session0.errors_ ∧
      (TranslateAluInstruction session0 (plainAlu 31)).1.ucode_disasm_line_number_ =
        session0.ucode_disasm_line_number_ + 1) ∧
    ((TranslateAluInstruction session0 (plainAlu 32)).1.errors_ =
      session0.errors_ ++
        [⟨ErrorKind.UnimplementedInstruction, "unimplemented alu vector opcode"⟩] ∧
     (TranslateAluInstruction session0 (plainAlu 32)).1.ucode_disasm_line_number_ =
       session0.ucode_disasm_line_number_ + 1) :=
  ⟨(alu_opcode_table_bounds session0 (plainAlu 31)).1 31 rfl (by decide),
    (alu_opcode_table_bounds session0 (plainAlu 32)).2.1 32 rfl (by decide)⟩

/-- Claim C5: a mini vertex fetch resolves its fetch-constant slot to the
slot of the full vertex fetch most recently recorded in the session's
`previous_vfetch_full_` (which every full fetch sets to itself), its decode
adds no error; a mini fetch decoded while no full fetch has been recorded —
as in a fresh session — fails with `InvalidEncoding`.  Concretely, a session
over a full fetch at slot 3 followed by a mini fetch resolves both fetches
to slot 3 with no error, and a fresh session whose first fetch is a mini
fetch records exactly the `InvalidEncoding` error. -/
theorem mini_vfetch_slot_reuse (st : TranslatorState) (op : VertexFetchInstruction) :
    (∀ prev : VertexFetchInstruction, op.is_mini_fetch = true →
      st.previous_vfetch_full_ = some prev →
      TranslateVertexFetchInstruction st op =
        (appendDisasmLine st ("vfetch_mini fc=" ++ toString prev.fetch_constant_index),
          [Event.vertexFetch prev.fetch_constant_index]) ∧
      (TranslateVertexFetchInstruction st op).1.errors_ = st.errors_) ∧
    (op.is_mini_fetch = true → st.previous_vfetch_full_ = none →
      (TranslateVertexFetchInstruction st op).1.errors_ =
        st.errors_ ++
          [⟨ErrorKind.InvalidEncoding, "vfetch_mini with no preceding full vfetch"⟩]) ∧
    (op.is_mini_fetch = false →
      (TranslateVertexFetchInstruction st op).1.previous_vfetch_full_ = some op) ∧
    ((Translate session0 ShaderType.kVertex ucodeMini3).trace.count
        (Event.vertexFetch 3) = 2 ∧
      (Translate session0 ShaderType.kVertex ucodeMini3).final.errors_ = []) ∧
    (Translate session0 ShaderType.kVertex ucodeMiniFirst).final.errors_ =
      [⟨ErrorKind.InvalidEncoding, "vfetch_mini with no preceding full vfetch"⟩] := by
  refine ⟨?_, ?_, ?_, by constructor <;> decide, by decide⟩
  · intro prev hm hp
    have heq : TranslateVertexFetchInstruction st op =
        (appendDisasmLine st ("vfetch_mini fc=" ++ toString prev.fetch_constant_index),
          [Event.vertexFetch prev.fetch_constant_index]) := by
      simp [TranslateVertexFetchInstruction, hm, hp]
    exact ⟨heq, by rw [heq]; simp [appendDisasmLine]⟩
  · intro hm hp
    simp [TranslateVertexFetchInstruction, hm, hp, appendDisasmLine,
      EmitTranslationError]
  · intro hm
    simp [TranslateVertexFetchInstruction, hm, appendDisasmLine]

theorem mini_vfetch_slot_reuse_witness :
    TranslateVertexFetchInstruction sessionPrev3 miniVfetch =
      (appendDisasmLine sessionPrev3
        ("vfetch_mini fc=" ++ toString (fullVfetch 3).fetch_constant_index),
        [Event.vertexFetch (fullVfetch 3).fetch_constant_index]) ∧
    (TranslateVertexFetchInstruction sessionPrev3 miniVfetch).1.errors_ =
      sessionPrev3.errors_ :=
  (mini_vfetch_slot_reuse sessionPrev3 miniVfetch).1 (fullVfetch 3) rfl rfl

/-- Claim C6: translation errors are recorded, never thrown: over any
stream the error list only grows, decoding continues over the whole stream
and the disassembly line counter advances by exactly the number of decode
steps, regardless of how many errors occurred; a stream with exactly one
unimplemented opcode in its middle yields a failed `Translate` whose error
list has exactly one entry while every decode step still produced its
disassembly line. -/
theorem errors_recorded_translation_continues :
    (∀ (st : TranslatorState) (u : List ControlFlowInstruction),
      (TranslateBlocks st u).1.ucode_disasm_line_number_ =
        st.ucode_disasm_line_number_ + decodeSteps u) ∧
    (∀ (st : TranslatorState) (u : List ControlFlowInstruction),
      ∃ es, (TranslateBlocks st u).1.errors_ = st.errors_ ++ es) ∧
    (Translate session0 ShaderType.kPixel ucodeMidBad).success = false ∧
    (Translate session0 ShaderType.kPixel ucodeMidBad).final.errors_.length = 1 ∧
    (Translate session0 ShaderType.kPixel ucodeMidBad).final.ucode_disasm_line_number_ =
      decodeSteps ucodeMidBad := by
  refine ⟨fun st u => (stepEffects_translateBlocks st u).1,
    fun st u => (stepEffects_translateBlocks st u).2.2.1, by decide, by decide, by decide⟩

/-- Claim C7: an ALU instruction whose export destination addresses render
target `i` (0-3) sets the session's flag `i` to true; the four flags are
monotone over the whole linearizer pass (never reset once set), `Reset`
starts them all false, and after translation they are queryable: exporting
to targets 0 and 3 yields `[true, false, false, true]`, exporting to none
yields `[false, false, false, false]`. -/
theorem render_target_write_flags :
    (∀ (st : TranslatorState) (op : AluInstruction) (i : Nat),
      st.writes_color_targets_.length = 4 → op.is_export = true → op.export_dest = i →
      i < 4 →
      ((TranslateAluInstruction st op).1.writes_color_targets_)[i]? = some true) ∧
    (∀ (st : TranslatorState) (u : List ControlFlowInstruction) (i : Nat),
      st.writes_color_targets_[i]? = some true →
      ((TranslateBlocks st u).1.writes_color_targets_)[i]? = some true) ∧
    (∀ st : TranslatorState,
      (Reset st).writes_color_targets_ = [false, false, false, false]) ∧
    (Translate session0 ShaderType.kPixel ucodeRt03).final.writes_color_targets_ =
      [true, false, false, true] ∧
    (Translate session0 ShaderType.kPixel ucodeNoExport).final.writes_color_targets_ =
      [false, false, false, false] := by
  refine ⟨?_, ?_, fun st => rfl, by decide, by decide⟩
  · intro st op i h4 he hd hi
    rw [translateAlu_flags]
    exact applyExport_sets_flag st op i h4 he hd hi
  · intro st u i h
    exact (stepEffects_translateBlocks st u).2.2.2.2.2 i h

theorem render_target_write_flags_witness :
    ((TranslateAluInstruction session0 (exportAlu 0)).1.writes_color_targets_)[0]? =
      some true :=
  render_target_write_flags.1 session0 (exportAlu 0) 0 rfl rfl rfl (by decide)

/-- Claim C8: the claim says the caller-supplied `Shader` entity
accumulates the vertex binding set, the texture binding set and the error
list; but the `Shader` class of the snapshot's `shader.h` (lines 20-24)
declares no data members at all, so any two `Shader` values are equal and
the type can accumulate nothing — while `shader_translator.h` keeps
`vertex_bindings_`, `texture_bindings_` and `errors_` as members of the
translator itself and refers to nested `Shader` types the snapshot's
`shader.h` does not declare. -/
theorem shader_class_holds_no_state (s t : Shader) : s = t := by
  cases s
  cases t
  rfl

/-- Claim C9: translation is deterministic: `Translate` over the same
shader kind and microcode produces identical results — success flag, binary
artifact, final state (hence binding sets, error list and disassembly text)
and hook trace — from any two starting session states, because `Reset`
reinitializes every piece of session state. -/
theorem translate_deterministic (s1 s2 : TranslatorState) (ty : ShaderType)
    (u : List ControlFlowInstruction) : Translate s1 ty u = Translate s2 ty u := rfl

/-- Claim C10, counterexample to the read-only exposure: the accessor
`ucode_disasm_buffer()` (shader_translator.h line 53) is a non-const member
function returning a non-const `StringBuffer&`, so a hook implementation
can write the buffer through it; writing through the exposed reference
changes the session state and the value later reads observe, which refutes
the claim that the buffer is exposed read-only. -/
theorem disasm_buffer_ref_write_mutates :
    ucode_disasm_buffer_ref_write session0 ["overwritten"] ≠ session0 ∧
    ucode_disasm_buffer (ucode_disasm_buffer_ref_write session0 ["overwritten"]) ≠
      ucode_disasm_buffer session0 := by
  constructor <;> decide

/-- Claim C10 as amended: the disassembly accumulator is an append-only
buffer with a monotonically increasing line counter — over any linearizer
pass the old buffer is a prefix of the new one and the counter advances by
exactly one line per decode step — and the buffer is exposed to hook
implementations through the `ucode_disasm_buffer` accessor (whose
declaration returns a mutable reference, so read-only access is not
enforced by the interface). -/
theorem disasm_accumulator_append_only (st : TranslatorState)
    (u : List ControlFlowInstruction) :
    (∃ t, (TranslateBlocks st u).1.ucode_disasm_buffer_ =
      st.ucode_disasm_buffer_ ++ t) ∧
    (TranslateBlocks st u).1.ucode_disasm_line_number_ =
      st.ucode_disasm_line_number_ + decodeSteps u ∧
    st.ucode_disasm_line_number_ ≤ (TranslateBlocks st u).1.ucode_disasm_line_number_ ∧
    ucode_disasm_buffer st = st.ucode_disasm_buffer_ := by
  refine ⟨(stepEffects_translateBlocks st u).2.1,
    (stepEffects_translateBlocks st u).1, ?_, rfl⟩
  rw [(stepEffects_translateBlocks st u).1]
  exact Nat.le_add_right _ _

end XeGpu
